import Mathlib

/-!
Shallow embedding of the cap-rate dashboard's deal/credit engine and data
service (`src/dashboard/js`), together with theorems checking the
specification's claims against it.

Modelling conventions:
* JavaScript numbers are modelled as rationals `ℚ`; the volatility
  functions, which take a square root, are modelled over the reals `ℝ`.
* `parseInt`/`parseFloat` results are modelled as `Option` values (`none`
  for `NaN`); raw report rows therefore carry pre-parsed fields.
* `parseFloat(v.toFixed(2))` is modelled as decimal rounding `round2`
  (ECMAScript `toFixed` picks the closest multiple of `10^-2`, the larger
  one at ties), similarly `round1` for `toFixed(1)`.
* The dashboard constructs `DealModel` with `amortizationMonths / 12` years
  (`DashboardController.js:262`) and `calculate` multiplies by 12 again
  (`DealModel.js:29`), so the model carries the integral month count
  `amortizationMonths` directly; `amortizationYears = amortizationMonths / 12`.
-/

namespace CapRate

/-- `parseFloat(v.toFixed(2))`: rounding to two decimals. -/
def round2 (x : ℚ) : ℚ := ((⌊x * 100 + 1 / 2⌋ : ℤ) : ℚ) / 100

/-- `parseFloat(v.toFixed(1))`: rounding to one decimal. -/
def round1 (x : ℚ) : ℚ := ((⌊x * 10 + 1 / 2⌋ : ℤ) : ℚ) / 10

/-- Constructor state of `DealModel` (`DealModel.js:4-14`). -/
structure DealModel where
  propertyValue : ℚ
  annualNOI : ℚ
  loanAmount : ℚ
  interestRate : ℚ
  amortizationMonths : ℕ
  sofrRate : ℚ
  deriving DecidableEq

/-- The record returned by `DealModel.calculate` (`DealModel.js:46-55`). -/
structure DealCalcs where
  actualCapRate : ℚ
  actualLTV : ℚ
  dscr : ℚ
  annualDebtService : ℚ
  debtConstant : ℚ
  spread : ℚ
  breakEvenNOI : ℚ
  monthlyPayment : ℚ
  deriving DecidableEq

/-- `DealModel.calculate` (`DealModel.js:19-58`): cap rate, LTV, monthly
amortization payment (zero-rate branch and the standard formula), annual
debt service, DSCR, debt constant, spread over the reference index and
break-even NOI.  `totalPayments = amortizationYears * 12 = amortizationMonths`. -/
def calculate (d : DealModel) : DealCalcs :=
  let actualCapRate := d.annualNOI / d.propertyValue * 100
  let actualLTV := d.loanAmount / d.propertyValue * 100
  let monthlyRate := d.interestRate / 100 / 12
  let totalPayments : ℕ := d.amortizationMonths
  let monthlyPayment :=
    if monthlyRate = 0 then
      d.loanAmount / (totalPayments : ℚ)
    else
      d.loanAmount * (monthlyRate * (1 + monthlyRate) ^ totalPayments) /
        ((1 + monthlyRate) ^ totalPayments - 1)
  let annualDebtService := monthlyPayment * 12
  let dscr := d.annualNOI / annualDebtService
  let debtConstant := annualDebtService / d.loanAmount * 100
  let spread := (d.interestRate - d.sofrRate) * 100
  let breakEvenNOI := annualDebtService
  { actualCapRate := actualCapRate
    actualLTV := actualLTV
    dscr := dscr
    annualDebtService := annualDebtService
    debtConstant := debtConstant
    spread := spread
    breakEvenNOI := breakEvenNOI
    monthlyPayment := monthlyPayment }

/-- The six credit decisions of `DealModel.getCreditDecision`. -/
inductive Decision where
  | strongApprove
  | approve
  | conditional
  | reviewRequired
  | highRisk
  | decline
  deriving DecidableEq

/-- The risk labels attached to credit decisions. -/
inductive Risk where
  | low
  | medium
  | high
  | veryHigh
  | unacceptable
  deriving DecidableEq

/-- Tier table of `DealModel.getCreditDecision` (`DealModel.js:63-91`),
as a function of the computed `(dscr, actualLTV, actualCapRate)`. -/
def creditDecisionOf (dscr ltv cap : ℚ) : Decision × Risk :=
  if 1.40 ≤ dscr ∧ ltv ≤ 70 ∧ 6.0 ≤ cap then (Decision.strongApprove, Risk.low)
  else if 1.30 ≤ dscr ∧ ltv ≤ 75 ∧ 5.5 ≤ cap then (Decision.approve, Risk.low)
  else if 1.25 ≤ dscr ∧ ltv ≤ 80 ∧ 4.5 ≤ cap then (Decision.conditional, Risk.medium)
  else if 1.20 ≤ dscr ∧ ltv ≤ 85 ∧ 4.0 ≤ cap then (Decision.reviewRequired, Risk.high)
  else if 1.15 ≤ dscr ∧ ltv ≤ 90 then (Decision.highRisk, Risk.veryHigh)
  else (Decision.decline, Risk.unacceptable)

/-- `DealModel.getCreditDecision` (`DealModel.js:63-91`). -/
def getCreditDecision (d : DealModel) : Decision × Risk :=
  let c := calculate d
  creditDecisionOf c.dscr c.actualLTV c.actualCapRate

/-- C1: `getCreditDecision` evaluates the tiers in strict order with first
match winning, using exactly the closed thresholds of `DealModel.js:68-90`;
each of the six decisions (with its risk label) is returned exactly on its
tier's region, so the tiers are mutually exclusive and exhaustive, and the
boundary point `dscr = 1.40, LTV = 70, capRate = 6.0` maps to
STRONG_APPROVE. -/
theorem creditDecision_tiers (dscr ltv cap : ℚ) :
    (creditDecisionOf dscr ltv cap = (Decision.strongApprove, Risk.low) ↔
      (1.40 ≤ dscr ∧ ltv ≤ 70 ∧ 6.0 ≤ cap)) ∧
    (creditDecisionOf dscr ltv cap = (Decision.approve, Risk.low) ↔
      (¬(1.40 ≤ dscr ∧ ltv ≤ 70 ∧ 6.0 ≤ cap) ∧
        (1.30 ≤ dscr ∧ ltv ≤ 75 ∧ 5.5 ≤ cap))) ∧
    (creditDecisionOf dscr ltv cap = (Decision.conditional, Risk.medium) ↔
      (¬(1.40 ≤ dscr ∧ ltv ≤ 70 ∧ 6.0 ≤ cap) ∧
        ¬(1.30 ≤ dscr ∧ ltv ≤ 75 ∧ 5.5 ≤ cap) ∧
        (1.25 ≤ dscr ∧ ltv ≤ 80 ∧ 4.5 ≤ cap))) ∧
    (creditDecisionOf dscr ltv cap = (Decision.reviewRequired, Risk.high) ↔
      (¬(1.40 ≤ dscr ∧ ltv ≤ 70 ∧ 6.0 ≤ cap) ∧
        ¬(1.30 ≤ dscr ∧ ltv ≤ 75 ∧ 5.5 ≤ cap) ∧
        ¬(1.25 ≤ dscr ∧ ltv ≤ 80 ∧ 4.5 ≤ cap) ∧
        (1.20 ≤ dscr ∧ ltv ≤ 85 ∧ 4.0 ≤ cap))) ∧
    (creditDecisionOf dscr ltv cap = (Decision.highRisk, Risk.veryHigh) ↔
      (¬(1.40 ≤ dscr ∧ ltv ≤ 70 ∧ 6.0 ≤ cap) ∧
        ¬(1.30 ≤ dscr ∧ ltv ≤ 75 ∧ 5.5 ≤ cap) ∧
        ¬(1.25 ≤ dscr ∧ ltv ≤ 80 ∧ 4.5 ≤ cap) ∧
        ¬(1.20 ≤ dscr ∧ ltv ≤ 85 ∧ 4.0 ≤ cap) ∧
        (1.15 ≤ dscr ∧ ltv ≤ 90))) ∧
    (creditDecisionOf dscr ltv cap = (Decision.decline, Risk.unacceptable) ↔
      (¬(1.40 ≤ dscr ∧ ltv ≤ 70 ∧ 6.0 ≤ cap) ∧
        ¬(1.30 ≤ dscr ∧ ltv ≤ 75 ∧ 5.5 ≤ cap) ∧
        ¬(1.25 ≤ dscr ∧ ltv ≤ 80 ∧ 4.5 ≤ cap) ∧
        ¬(1.20 ≤ dscr ∧ ltv ≤ 85 ∧ 4.0 ≤ cap) ∧
        ¬(1.15 ≤ dscr ∧ ltv ≤ 90))) ∧
    creditDecisionOf 1.40 70 6.0 = (Decision.strongApprove, Risk.low) ∧
    (∀ d : DealModel, getCreditDecision d =
      creditDecisionOf (calculate d).dscr (calculate d).actualLTV (calculate d).actualCapRate) := by
  refine ⟨?_, ?_, ?_, ?_, ?_, ?_, ?_, fun d => rfl⟩ <;>
    · unfold creditDecisionOf
      split_ifs <;> simp_all

/-- The example deal of the spec's test scenario: `propertyValue=1,000,000`,
`NOI=80,000`, `loanAmount=750,000`, `rate=5.5%`, 25-year amortization
(300 months), `indexRate=4.2%`. -/
def exampleDeal : DealModel :=
  { propertyValue := 1000000
    annualNOI := 80000
    loanAmount := 750000
    interestRate := 5.5
    amortizationMonths := 300
    sofrRate := 4.2 }

/-- C2: `calculate` computes the monthly payment by the standard
amortizing-loan formula over `n = amortizationMonths` at
`monthlyRate = (annualRatePct/100)/12` — `loanAmount/n` when the monthly
rate is zero, otherwise `loanAmount * monthlyRate * (1+monthlyRate)^n /
((1+monthlyRate)^n - 1)` — and on the example input returns
`actualCapRate = 8.0` and `actualLTV = 75.0`. -/
theorem calculate_payment_formula :
    (∀ d : DealModel, d.interestRate = 0 →
      (calculate d).monthlyPayment = d.loanAmount / (d.amortizationMonths : ℚ)) ∧
    (∀ d : DealModel, d.interestRate ≠ 0 →
      (calculate d).monthlyPayment =
        d.loanAmount * (d.interestRate / 100 / 12) *
            (1 + d.interestRate / 100 / 12) ^ d.amortizationMonths /
          ((1 + d.interestRate / 100 / 12) ^ d.amortizationMonths - 1)) ∧
    (calculate exampleDeal).actualCapRate = 8 ∧
    (calculate exampleDeal).actualLTV = 75 := by
  refine ⟨?_, ?_, ?_, ?_⟩
  · intro d h
    simp [calculate, h]
  · intro d h
    have hr : ¬(d.interestRate / 100 / 12 = 0) := by
      rw [div_div, div_eq_zero_iff]
      push_neg
      exact ⟨h, by norm_num⟩
    simp only [calculate]
    rw [if_neg hr]
    ring
  · norm_num [calculate, exampleDeal]
  · norm_num [calculate, exampleDeal]

/-- Witness for C2: the two payment-formula branches applied at concrete
deals (zero rate, and the 5.5% example). -/
theorem calculate_payment_formula_witness :
    (calculate { exampleDeal with interestRate := 0 }).monthlyPayment =
      (750000 : ℚ) / 300 ∧
    (calculate exampleDeal).monthlyPayment =
      750000 * (5.5 / 100 / 12) * (1 + 5.5 / 100 / 12) ^ 300 /
        ((1 + 5.5 / 100 / 12) ^ 300 - 1) := by
  constructor
  · exact calculate_payment_formula.1 { exampleDeal with interestRate := 0 } rfl
  · exact calculate_payment_formula.2.1 exampleDeal (by norm_num [exampleDeal])

/-- `DealModel.validateInputs` (`DealModel.js:144-160`): the six hard
bound checks followed by the three logical checks, with one message per
violated constraint, accumulated in push order. -/
def validateInputs (d : DealModel) : List String :=
  (if d.propertyValue ≤ 0 then ["Property value must be positive"] else []) ++
  (if d.annualNOI ≤ 0 then ["Annual NOI must be positive"] else []) ++
  (if d.loanAmount ≤ 0 then ["Loan amount must be positive"] else []) ++
  (if d.interestRate ≤ 0 ∨ 20 < d.interestRate then
    ["Interest rate must be between 0% and 20%"] else []) ++
  (if (d.amortizationMonths : ℚ) / 12 < 1 ∨ 50 < (d.amortizationMonths : ℚ) / 12 then
    ["Amortization must be between 1 and 50 years"] else []) ++
  (if d.sofrRate < 0 ∨ 10 < d.sofrRate then
    ["SOFR rate must be between 0% and 10%"] else []) ++
  (if d.propertyValue < d.loanAmount then
    ["Loan amount cannot exceed property value"] else []) ++
  (if d.propertyValue * 0.2 < d.annualNOI then
    ["NOI seems unusually high relative to property value"] else []) ++
  (if d.interestRate < d.sofrRate then
    ["Interest rate should be higher than SOFR rate"] else [])

/-- The dashboard's deal-computation flow,
`DashboardController.calculateDeal` (`DashboardController.js:233-280`): it
aborts (alert) listing the fields that are missing or non-positive, and
otherwise computes the metrics directly — it never consults
`validateInputs`.  A `NaN` parse result fails the same `<= 0` test, so it
is covered by the non-positive case; `amortizationMonths = 0` is the `ℕ`
form of `months <= 0`. -/
def missingInputs (d : DealModel) : List String :=
  (if d.propertyValue ≤ 0 then ["propertyValue"] else []) ++
  (if d.annualNOI ≤ 0 then ["annualNOI"] else []) ++
  (if d.loanAmount ≤ 0 then ["loanAmount"] else []) ++
  (if d.interestRate ≤ 0 then ["interestRate"] else []) ++
  (if d.amortizationMonths = 0 then ["amortizationMonths"] else []) ++
  (if d.sofrRate ≤ 0 then ["sofrRate"] else [])

/-- The branch of `DashboardController.calculateDeal` after the missing
check: abort with the alert list, or compute. -/
def calculateDeal (d : DealModel) : Except (List String) DealCalcs :=
  if missingInputs d = [] then Except.ok (calculate d)
  else Except.error (missingInputs d)

/-- A deal whose interest rate (25%) is outside the documented bound
`(0, 20]` but which the dashboard flow still computes. -/
def outOfBoundsDeal : DealModel :=
  { propertyValue := 1000000
    annualNOI := 80000
    loanAmount := 750000
    interestRate := 25
    amortizationMonths := 300
    sofrRate := 4 }

/-- Counterexample for C3: for the deal with `interestRate = 25` (outside
the documented bound), `validateInputs` does name the violated constraint,
yet the engine does not refuse — `calculateDeal` computes and returns the
metrics. -/
theorem dealEngine_computes_despite_violation :
    calculateDeal outOfBoundsDeal = Except.ok (calculate outOfBoundsDeal) ∧
    validateInputs outOfBoundsDeal = ["Interest rate must be between 0% and 20%"] := by
  constructor
  · norm_num [calculateDeal, missingInputs, outOfBoundsDeal]
  · norm_num [validateInputs, outOfBoundsDeal]

theorem mem_ite_singleton {c : Prop} [Decidable c] (s m : String) :
    (s ∈ if c then [m] else []) ↔ c ∧ s = m := by
  split_ifs with h <;> simp [h]

theorem ite_singleton_eq_nil {c : Prop} [Decidable c] (m : String) :
    ((if c then [m] else []) = []) ↔ ¬c := by
  split_ifs with h <;> simp [h]

theorem missingInputs_eq_nil_iff (d : DealModel) :
    missingInputs d = [] ↔
      (0 < d.propertyValue ∧ 0 < d.annualNOI ∧ 0 < d.loanAmount ∧
        0 < d.interestRate ∧ d.amortizationMonths ≠ 0 ∧ 0 < d.sofrRate) := by
  simp only [missingInputs, List.append_eq_nil, ite_singleton_eq_nil, not_le]
  tauto

/-- C3 (amended): `validateInputs` returns one message per violated hard
bound (so any violated documented bound is named), but the engine does not
refuse on them: the dashboard flow `calculateDeal` blocks exactly the
non-positive inputs and otherwise computes the metrics, even when a
documented bound (rate ≤ 20, amortization 1–50 years, index rate ≤ 10) is
violated. -/
theorem validateInputs_names_violations (d : DealModel) :
    ("Property value must be positive" ∈ validateInputs d ↔ d.propertyValue ≤ 0) ∧
    ("Annual NOI must be positive" ∈ validateInputs d ↔ d.annualNOI ≤ 0) ∧
    ("Loan amount must be positive" ∈ validateInputs d ↔ d.loanAmount ≤ 0) ∧
    ("Interest rate must be between 0% and 20%" ∈ validateInputs d ↔
      (d.interestRate ≤ 0 ∨ 20 < d.interestRate)) ∧
    ("Amortization must be between 1 and 50 years" ∈ validateInputs d ↔
      ((d.amortizationMonths : ℚ) / 12 < 1 ∨ 50 < (d.amortizationMonths : ℚ) / 12)) ∧
    ("SOFR rate must be between 0% and 10%" ∈ validateInputs d ↔
      (d.sofrRate < 0 ∨ 10 < d.sofrRate)) ∧
    (calculateDeal d = Except.ok (calculate d) ↔
      (0 < d.propertyValue ∧ 0 < d.annualNOI ∧ 0 < d.loanAmount ∧
        0 < d.interestRate ∧ d.amortizationMonths ≠ 0 ∧ 0 < d.sofrRate)) := by
  refine ⟨?_, ?_, ?_, ?_, ?_, ?_, ?_⟩
  · simp [validateInputs, List.mem_append, mem_ite_singleton]
  · simp [validateInputs, List.mem_append, mem_ite_singleton]
  · simp [validateInputs, List.mem_append, mem_ite_singleton]
  · simp [validateInputs, List.mem_append, mem_ite_singleton]
  · simp [validateInputs, List.mem_append, mem_ite_singleton]
  · simp [validateInputs, List.mem_append, mem_ite_singleton]
  · simp only [calculateDeal]
    split_ifs with hc
    · exact iff_of_true rfl ((missingInputs_eq_nil_iff d).mp hc)
    · exact iff_of_false (by simp)
        (fun hr => hc ((missingInputs_eq_nil_iff d).mpr hr))

/-- The four LTV risk bands. -/
inductive LTVLevel where
  | conservative
  | standard
  | aggressive
  | highRisk
  deriving DecidableEq

/-- `DealModel.getLTVRisk` (`DealModel.js:175-180`). -/
def getLTVRisk (ltv : ℚ) : LTVLevel :=
  if ltv ≤ 70 then LTVLevel.conservative
  else if ltv ≤ 75 then LTVLevel.standard
  else if ltv ≤ 80 then LTVLevel.aggressive
  else LTVLevel.highRisk

/-- Risk-band part of `MarketValidationService.calculateImpliedLTV`
(`ChartManager.js:509-521`): default CONSERVATIVE, overridden when the
implied LTV exceeds 85 / 80 / 75. -/
def impliedLTVRisk (ltv : ℚ) : LTVLevel :=
  if 85 < ltv then LTVLevel.highRisk
  else if 80 < ltv then LTVLevel.aggressive
  else if 75 < ltv then LTVLevel.standard
  else LTVLevel.conservative

/-- `MarketValidationService.calculateImpliedLTV` (`ChartManager.js:502-530`):
`null` on falsy or non-positive arguments, otherwise the implied LTV
(rounded to one decimal in the returned record) and its risk band computed
from the unrounded value. -/
def calculateImpliedLTV (loanAmount derivedPropertyValue : ℚ) :
    Option (ℚ × LTVLevel) :=
  if loanAmount = 0 ∨ derivedPropertyValue = 0 ∨ derivedPropertyValue ≤ 0 then none
  else
    let impliedLTV := loanAmount / derivedPropertyValue * 100
    some (round1 impliedLTV, impliedLTVRisk impliedLTV)

/-- Counterexample for C7: at LTV 72 the Deal Engine's band is STANDARD but
the market-validation band is CONSERVATIVE — the two functions do not use
the same four-tier thresholds. -/
theorem impliedLTV_band_mismatch :
    impliedLTVRisk 72 ≠ getLTVRisk 72 ∧
    calculateImpliedLTV 72 100 = some (72, LTVLevel.conservative) ∧
    getLTVRisk 72 = LTVLevel.standard := by
  have h1 : impliedLTVRisk 72 = LTVLevel.conservative := by norm_num [impliedLTVRisk]
  have h2 : getLTVRisk 72 = LTVLevel.standard := by norm_num [getLTVRisk]
  refine ⟨by rw [h1, h2]; simp, ?_, h2⟩
  norm_num [calculateImpliedLTV, round1, h1]

/-- C7 (amended): the market-validation band uses thresholds shifted one
band up (≤75 CONSERVATIVE, ≤80 STANDARD, ≤85 AGGRESSIVE, else HIGH_RISK),
not the Deal Engine's (≤70, ≤75, ≤80); the two functions agree exactly when
`ltv ≤ 70` or `85 < ltv`. -/
theorem impliedLTV_band_shifted (ltv : ℚ) :
    impliedLTVRisk ltv =
      (if ltv ≤ 75 then LTVLevel.conservative
       else if ltv ≤ 80 then LTVLevel.standard
       else if ltv ≤ 85 then LTVLevel.aggressive
       else LTVLevel.highRisk) ∧
    (impliedLTVRisk ltv = getLTVRisk ltv ↔ (ltv ≤ 70 ∨ 85 < ltv)) := by
  unfold impliedLTVRisk getLTVRisk
  constructor
  · split_ifs <;> first | rfl | linarith
  · split_ifs <;> simp_all <;> linarith

/-- Counterexample for C10: at the zero-rate boundary the DSCR is *not*
left unchanged by an increase of the loan amount — it strictly decreases
there as well (100 vs 50 on this input). -/
theorem dscr_zero_rate_not_unchanged :
    (calculate { propertyValue := 100, annualNOI := 100, loanAmount := 2,
                 interestRate := 0, amortizationMonths := 12, sofrRate := 0 }).dscr ≠
      (calculate { propertyValue := 100, annualNOI := 100, loanAmount := 1,
                   interestRate := 0, amortizationMonths := 12, sofrRate := 0 }).dscr := by
  norm_num [calculate]

/-- C10 (amended): holding the other fields fixed, increasing the loan
amount strictly decreases the DSCR computed by `calculate` for every
non-negative interest rate — in the positive-rate branch of the payment
formula and in the zero-rate branch alike. -/
theorem dscr_strictAnti_loanAmount (pv noi r sofr : ℚ) (m : ℕ) (L1 L2 : ℚ)
    (hnoi : 0 < noi) (hL1 : 0 < L1) (hL : L1 < L2) (hm : 1 ≤ m) (hr : 0 ≤ r) :
    (calculate { propertyValue := pv, annualNOI := noi, loanAmount := L2,
                 interestRate := r, amortizationMonths := m, sofrRate := sofr }).dscr <
      (calculate { propertyValue := pv, annualNOI := noi, loanAmount := L1,
                   interestRate := r, amortizationMonths := m, sofrRate := sofr }).dscr := by
  rcases eq_or_lt_of_le hr with h0 | hpos
  · have hms : (0 : ℚ) < (m : ℚ) := by exact_mod_cast hm
    have key0 : ∀ L : ℚ, L / (m : ℚ) * 12 = L * (12 / (m : ℚ)) := fun L => by ring
    simp only [calculate, ← h0]
    norm_num
    rw [key0, key0]
    exact div_lt_div_of_pos_left hnoi (by positivity)
      (mul_lt_mul_of_pos_right hL (by positivity))
  · have hr12 : (0 : ℚ) < r / 100 / 12 := by positivity
    have hrne : ¬(r / 100 / 12 = 0) := ne_of_gt hr12
    have hp : 1 < (1 + r / 100 / 12) ^ m :=
      one_lt_pow₀ (by linarith) (by omega)
    have hc : 0 < r / 100 / 12 * (1 + r / 100 / 12) ^ m /
        ((1 + r / 100 / 12) ^ m - 1) * 12 := by
      apply mul_pos _ (by norm_num)
      exact div_pos (by positivity) (by linarith)
    simp only [calculate]
    rw [if_neg hrne, if_neg hrne]
    have key : ∀ L : ℚ,
        L * (r / 100 / 12 * (1 + r / 100 / 12) ^ m) /
            ((1 + r / 100 / 12) ^ m - 1) * 12 =
          L * (r / 100 / 12 * (1 + r / 100 / 12) ^ m /
            ((1 + r / 100 / 12) ^ m - 1) * 12) := by
      intro L
      field_simp
      ring
    rw [key, key]
    exact div_lt_div_of_pos_left hnoi (by positivity)
      (mul_lt_mul_of_pos_right hL hc)

/-- Witness for C10 (amended), at a concrete positive-rate deal. -/
theorem dscr_strictAnti_loanAmount_witness :
    (calculate { propertyValue := 100, annualNOI := 100, loanAmount := 2,
                 interestRate := 1, amortizationMonths := 12, sofrRate := 0 }).dscr <
      (calculate { propertyValue := 100, annualNOI := 100, loanAmount := 1,
                   interestRate := 1, amortizationMonths := 12, sofrRate := 0 }).dscr :=
  dscr_strictAnti_loanAmount 100 100 1 0 12 1 2 (by norm_num) (by norm_num)
    (by norm_num) (by norm_num) (by norm_num)

/-- A raw CSV row (`DataService.parseCSV`), with the numeric fields
pre-parsed: `parseInt(Report_Year)`, `parseInt(Report_Half)` and the
`parseFloat` of the four rate fields are modelled as `Option` values,
`none` standing for `NaN`; a missing sector or market is the empty
string (both are falsy in the source's checks). -/
structure RawRow where
  Report_Year : Option ℤ
  Report_Half : Option ℤ
  Sector : String
  Market : String
  H1_Low : Option ℚ
  H1_High : Option ℚ
  H2_Low : Option ℚ
  H2_High : Option ℚ
  deriving DecidableEq

/-- `DataService.isValidCapRate` (`DataService.js:80-83`): parses as a
float and lies in 1–15. -/
def isValidCapRate (v : Option ℚ) : Bool :=
  match v with
  | none => false
  | some x => decide (1 ≤ x ∧ x ≤ 15)

/-- Year check of `DataService.processData` (`DataService.js:50-51`). -/
def isValidYear (o : Option ℤ) : Bool :=
  match o with
  | none => false
  | some y => decide (2020 ≤ y ∧ y ≤ 2025)

/-- Half check of `DataService.processData` (`DataService.js:54-55`). -/
def isValidHalf (o : Option ℤ) : Bool :=
  match o with
  | none => false
  | some h => decide (h = 1 ∨ h = 2)

/-- `DataService.calculateAverage` (`DataService.js:125-134`): average of
the two bounds, the present one if only one parses, `null` if neither. -/
def calculateAverage (low high : Option ℚ) : Option ℚ :=
  match low, high with
  | none, none => none
  | none, some h => some h
  | some l, none => some l
  | some l, some h => some ((l + h) / 2)

/-- ASCII lower-casing of `A`–`Z`, for the case-insensitive deny-list
patterns of `isValidMarket`. -/
def lowerChar (c : Char) : Char :=
  if 'A' ≤ c ∧ c ≤ 'Z' then Char.ofNat (c.toNat + 32) else c

/-- JavaScript `String.prototype.trim` on the character list. -/
def trimChars (cs : List Char) : List Char :=
  ((cs.dropWhile Char.isWhitespace).reverse.dropWhile Char.isWhitespace).reverse

/-- `DataService.isValidMarket` (`DataService.js:88-120`): length ≥ 3, not
matching the deny-list of extraction artifacts (bare "Market", headings,
4-digit years, percentages, non-letter start, whitespace-only), contains at
least one letter (`Char.isAlpha` is exactly `[a-zA-Z]`), trimmed length
≤ 50. -/
def isValidMarket (market : String) : Bool :=
  if market.length < 3 then false
  else
    let t := trimChars market.data
    let low := t.map lowerChar
    if low = "market".data then false
    else if "looking forward".data.isPrefixOf low then false
    else if "figure".data.isPrefixOf low then false
    else if "after".data.isPrefixOf low then false
    else if "but fortune".data.isPrefixOf low then false
    else if low = "the".data then false
    else if t.length = 4 && t.all Char.isDigit then false
    else if (match t.reverse with
             | '%' :: rest => !rest.isEmpty && rest.all Char.isDigit
             | _ => false) then false
    else if (match t with
             | [] => false
             | c :: _ => !c.isAlpha) then false
    else if t.isEmpty then false
    else if !(t.any Char.isAlpha) || 50 < t.length then false
    else true

/-- A processed record (`DataService.processData`, `DataService.js:68-74`):
the raw row plus the derived fields.  The string period key
`"${Report_Year}_${Report_Half}"` is modelled as the pair of the parsed
year and half (admitted rows always have both). -/
structure CapRateRecord extends RawRow where
  h1_avg : Option ℚ
  h2_avg : Option ℚ
  period_key : ℤ × ℤ
  is_valid_market : Bool
  deriving DecidableEq

/-- Admissibility filter of `DataService.processData`
(`DataService.js:48-65`). -/
def rowAdmissible (row : RawRow) : Bool :=
  isValidYear row.Report_Year &&
  isValidHalf row.Report_Half &&
  decide (3 ≤ row.Sector.length) &&
  (isValidCapRate row.H1_Low || isValidCapRate row.H1_High ||
    isValidCapRate row.H2_Low || isValidCapRate row.H2_High)

/-- `DataService.processData` (`DataService.js:46-75`): filter admissible
rows, then add the calculated fields. -/
def processData (rawData : List RawRow) : List CapRateRecord :=
  (rawData.filter rowAdmissible).map (fun row =>
    { toRawRow := row
      h1_avg := calculateAverage row.H1_Low row.H1_High
      h2_avg := calculateAverage row.H2_Low row.H2_High
      period_key := (row.Report_Year.getD 0, row.Report_Half.getD 0)
      is_valid_market := isValidMarket row.Market })

/-- `DataService.filterData` (`DataService.js:179-190`); `none` models an
absent (falsy) criterion. -/
def filterData (data : List CapRateRecord) (sector market : Option String)
    (period : Option (ℤ × ℤ)) (validMarketOnly : Bool) : List CapRateRecord :=
  data.filter (fun row =>
    (match sector with | some s => decide (row.Sector = s) | none => true) &&
    (match market with | some mkt => decide (row.Market = mkt) | none => true) &&
    (match period with | some p => decide (row.period_key = p) | none => true) &&
    (!validMarketOnly || row.is_valid_market))

/-- Code-point comparison of two character lists, modelling the default
JavaScript `Array.prototype.sort` comparator on strings. -/
def charListLe : List Char → List Char → Bool
  | [], _ => true
  | _ :: _, [] => false
  | a :: as, b :: bs =>
    if a.toNat < b.toNat then true
    else if b.toNat < a.toNat then false
    else charListLe as bs

/-- The string comparator as a relation, for use with `insertionSort`. -/
def strRel (a b : String) : Prop := charListLe a.data b.data = true

instance : DecidableRel strRel := fun a b => by
  unfold strRel
  infer_instance

/-- `DataService.getSectors` (`DataService.js:139-144`): unique sectors in
insertion order, falsy entries dropped, sorted. -/
def getSectors (data : List CapRateRecord) : List String :=
  List.insertionSort strRel
    (((data.map (fun r => r.Sector)).eraseDups).filter (fun s => s != ""))

/-- The period comparator of `DataService.getPeriods`
(`DataService.js:167-173`): numeric year, then numeric half. -/
def periodRel (a b : ℤ × ℤ) : Prop :=
  a.1 < b.1 ∨ (a.1 = b.1 ∧ a.2 ≤ b.2)

instance : DecidableRel periodRel := fun a b => by
  unfold periodRel
  infer_instance

instance : IsTotal (ℤ × ℤ) periodRel :=
  ⟨fun a b => by unfold periodRel; omega⟩

instance : IsTrans (ℤ × ℤ) periodRel :=
  ⟨fun a b c => by unfold periodRel; omega⟩

/-- `DataService.getPeriods` (`DataService.js:162-174`): unique period
keys, sorted chronologically (numeric year then numeric half). -/
def getPeriods (data : List CapRateRecord) : List (ℤ × ℤ) :=
  List.insertionSort periodRel ((data.map (fun r => r.period_key)).eraseDups)

/-- The JavaScript expression `row.h1_avg || row.h2_avg`: `h2_avg` when
`h1_avg` is `null` *or zero* (both falsy). -/
def jsOr (a b : Option ℚ) : Option ℚ :=
  match a with
  | some x => if x = 0 then b else some x
  | none => b

/-- `.map(row => row.h1_avg || row.h2_avg).filter(rate => rate !== null)`,
the rate-selection step shared by the aggregate computations
(`DataService.js:208-210, 233-235, 256-258, 308-310`). -/
def ratesOf (rows : List CapRateRecord) : List ℚ :=
  (rows.map (fun row => jsOr row.h1_avg row.h2_avg)).filterMap id

/-- One point of `getTimeSeriesData`'s output array. -/
structure TimeSeriesEntry where
  period : ℤ × ℤ
  avgRate : ℚ
  count : ℕ
  deriving DecidableEq

/-- `DataService.getTimeSeriesData` (`DataService.js:195-224`): iterate the
sorted periods, pushing an entry only when the period has matching records
with at least one non-null selected rate. -/
def pushEntry (filtered : List CapRateRecord) (acc : List TimeSeriesEntry)
    (period : ℤ × ℤ) : List TimeSeriesEntry :=
  let periodData := filtered.filter (fun row => decide (row.period_key = period))
  if 0 < periodData.length then
    let avgRates := ratesOf periodData
    if 0 < avgRates.length then
      acc ++ [{ period := period
                avgRate := round2 (avgRates.sum / (avgRates.length : ℚ))
                count := periodData.length }]
    else acc
  else acc

def getTimeSeriesData (data : List CapRateRecord) (sector market : Option String) :
    List TimeSeriesEntry :=
  (getPeriods data).foldl (pushEntry (filterData data sector market none true)) []

/-- One row of `getSectorComparison`'s output. -/
structure SectorStat where
  sector : String
  avgRate : ℚ
  count : ℕ
  deriving DecidableEq

/-- `DataService.getSectorComparison` (`DataService.js:229-247`). -/
def getSectorComparison (data : List CapRateRecord) : List SectorStat :=
  ((getSectors data).map (fun sector =>
    let sectorData := filterData data (some sector) none none true
    let rates := ratesOf sectorData
    let avgRate := if 0 < rates.length then rates.sum / (rates.length : ℚ) else 0
    { sector := sector, avgRate := round2 avgRate, count := sectorData.length })).filter
    (fun item => decide (0 < item.avgRate))

/-- Per-sector series of `DataService.getMultiSectorTimeSeriesData`
(`DataService.js:279-325`): the array `result.data[sector]`, one entry per
period of `result.periods = getPeriods(...)`, `null` when the sector has no
matching records (or no non-null rates) in that period. -/
def multiSectorSeries (data : List CapRateRecord) (filterSector filterMarket : Option String)
    (sector : String) : List (Option ℚ) :=
  let filtered := filterData data filterSector filterMarket none true
  (getPeriods data).map (fun period =>
    let spd := filtered.filter (fun row =>
      decide (row.period_key = period) && decide (row.Sector = sector))
    if 0 < spd.length then
      let rates := ratesOf spd
      if 0 < rates.length then some (round2 (rates.sum / (rates.length : ℚ)))
      else none
    else none)

/-- The record returned by `getMarketCapRate`. -/
structure MarketCapStats where
  avgRate : ℚ
  minRate : ℚ
  maxRate : ℚ
  dataPoints : ℕ
  deriving DecidableEq

/-- `if (x) rates.push(x)`: the contribution of one possibly-null average
under JavaScript truthiness (`ChartManager.js:407-408`). -/
def truthyRate (v : Option ℚ) : List ℚ :=
  match v with
  | some x => if x = 0 then [] else [x]
  | none => []

/-- `Math.min(...rates)` on a non-empty list (0 is never used: the caller
guards emptiness). -/
def listMin : List ℚ → ℚ
  | [] => 0
  | x :: xs => xs.foldl min x

/-- `Math.max(...rates)` on a non-empty list. -/
def listMax : List ℚ → ℚ
  | [] => 0
  | x :: xs => xs.foldl max x

/-- `MarketValidationService.getMarketCapRate` (`ChartManager.js:388-428`):
the period-scoped aggregate; it pushes *both* `h1_avg` and `h2_avg` of
every filtered record when truthy. -/
def getMarketCapRate (data : List CapRateRecord) (sector market : String)
    (period : ℤ × ℤ) : Option MarketCapStats :=
  if sector = "" ∨ market = "" then none
  else
    let filteredData := filterData data (some sector) (some market) (some period) true
    if filteredData.length = 0 then none
    else
      let rates := filteredData.foldl
        (fun acc row => acc ++ truthyRate row.h1_avg ++ truthyRate row.h2_avg) []
      if rates.length = 0 then none
      else
        some { avgRate := round2 (rates.sum / (rates.length : ℚ))
               minRate := round2 (listMin rates)
               maxRate := round2 (listMax rates)
               dataPoints := rates.length }

theorem isValidYear_iff (o : Option ℤ) :
    isValidYear o = true ↔ ∃ y, o = some y ∧ 2020 ≤ y ∧ y ≤ 2025 := by
  cases o <;> simp [isValidYear]

theorem isValidHalf_iff (o : Option ℤ) :
    isValidHalf o = true ↔ ∃ h, o = some h ∧ (h = 1 ∨ h = 2) := by
  cases o <;> simp [isValidHalf]

theorem length_filter_partition {α : Type} (p : α → Bool) (l : List α) :
    (l.filter p).length + (l.filter (fun a => !(p a))).length = l.length := by
  induction l with
  | nil => rfl
  | cons a l ih => cases h : p a <;> simp [List.filter_cons, h, ← ih] <;> omega

/-- C4: every record produced by `processData` satisfies the admissibility
invariant — the year parses and lies in 2020–2025, the half parses to 1 or
2, the sector has at least 3 characters, and at least one of the four rate
fields is a valid cap rate — and the admitted count plus the rejected
count equals the total row count. -/
theorem processData_admissible (rawData : List RawRow) :
    (∀ rec ∈ processData rawData,
      (∃ y, rec.Report_Year = some y ∧ 2020 ≤ y ∧ y ≤ 2025) ∧
      (∃ h, rec.Report_Half = some h ∧ (h = 1 ∨ h = 2)) ∧
      3 ≤ rec.Sector.length ∧
      (isValidCapRate rec.H1_Low || isValidCapRate rec.H1_High ||
        isValidCapRate rec.H2_Low || isValidCapRate rec.H2_High) = true) ∧
    (processData rawData).length +
      (rawData.filter (fun row => !(rowAdmissible row))).length = rawData.length := by
  constructor
  · intro rec hrec
    simp only [processData, List.mem_map, List.mem_filter] at hrec
    obtain ⟨row, ⟨hmem, hadm⟩, hrec⟩ := hrec
    simp only [rowAdmissible, Bool.and_eq_true, decide_eq_true_eq] at hadm
    obtain ⟨⟨⟨hy, hh⟩, hs⟩, hr⟩ := hadm
    subst hrec
    refine ⟨?_, ?_, hs, ?_⟩
    · exact (isValidYear_iff _).mp hy
    · exact (isValidHalf_iff _).mp hh
    · simp only [Bool.or_eq_true] at hr ⊢
      exact hr
  · have hlen : (processData rawData).length = (rawData.filter rowAdmissible).length := by
      simp [processData]
    rw [hlen]
    exact length_filter_partition rowAdmissible rawData

/-- An admissible raw row used by the concrete witnesses. -/
def sampleRow : RawRow :=
  { Report_Year := some 2021, Report_Half := some 1, Sector := "Industrial",
    Market := "Dallas", H1_Low := some 4, H1_High := some 5,
    H2_Low := none, H2_High := none }

/-- The record `processData` produces from `sampleRow`. -/
def sampleRec : CapRateRecord :=
  { toRawRow := sampleRow, h1_avg := some 4.5, h2_avg := none,
    period_key := (2021, 1), is_valid_market := true }

/-- Witness for C4 at the concrete one-row batch `[sampleRow]`. -/
theorem processData_admissible_witness :
    (∃ y, sampleRec.Report_Year = some y ∧ 2020 ≤ y ∧ y ≤ 2025) ∧
    3 ≤ sampleRec.Sector.length := by
  have hmem : sampleRec ∈ processData [sampleRow] := by
    norm_num [processData, rowAdmissible, isValidYear, isValidHalf,
      isValidCapRate, calculateAverage, sampleRow, sampleRec, List.filter,
      (by decide : isValidMarket "Dallas" = true),
      (by decide : 3 ≤ "Industrial".length)]
  have h := (processData_admissible [sampleRow]).1 sampleRec hmem
  exact ⟨h.1, h.2.2.1⟩

theorem charListLe_total : ∀ a b : List Char, charListLe a b = true ∨ charListLe b a = true
  | [], _ => Or.inl rfl
  | _ :: _, [] => Or.inr rfl
  | a :: as, b :: bs => by
    simp only [charListLe]
    rcases Nat.lt_trichotomy a.toNat b.toNat with h | h | h
    · left
      rw [if_pos h]
    · rcases charListLe_total as bs with ih | ih
      · left
        rw [if_neg (by omega), if_neg (by omega)]
        exact ih
      · right
        rw [if_neg (by omega), if_neg (by omega)]
        exact ih
    · right
      rw [if_pos h]

theorem charListLe_trans : ∀ a b c : List Char,
    charListLe a b = true → charListLe b c = true → charListLe a c = true
  | [], _, _, _, _ => rfl
  | _ :: _, [], _, h1, _ => by simp [charListLe] at h1
  | _ :: _, _ :: _, [], _, h2 => by simp [charListLe] at h2
  | a :: as, b :: bs, c :: cs, h1, h2 => by
    simp only [charListLe] at h1 h2 ⊢
    by_cases gab : a.toNat < b.toNat
    · by_cases gbc : b.toNat < c.toNat
      · rw [if_pos (by omega)]
      · by_cases gcb : c.toNat < b.toNat
        · rw [if_neg gbc, if_pos gcb] at h2
          exact absurd h2 (by simp)
        · rw [if_pos (by omega)]
    · by_cases gba : b.toNat < a.toNat
      · rw [if_neg gab, if_pos gba] at h1
        exact absurd h1 (by simp)
      · rw [if_neg gab, if_neg gba] at h1
        by_cases gbc : b.toNat < c.toNat
        · rw [if_pos (by omega)]
        · by_cases gcb : c.toNat < b.toNat
          · rw [if_neg gbc, if_pos gcb] at h2
            exact absurd h2 (by simp)
          · rw [if_neg gbc, if_neg gcb] at h2
            rw [if_neg (by omega : ¬a.toNat < c.toNat),
              if_neg (by omega : ¬c.toNat < a.toNat)]
            exact charListLe_trans as bs cs h1 h2

theorem charListLe_antisymm : ∀ a b : List Char,
    charListLe a b = true → charListLe b a = true → a = b
  | [], [], _, _ => rfl
  | [], _ :: _, _, h2 => by simp [charListLe] at h2
  | _ :: _, [], h1, _ => by simp [charListLe] at h1
  | a :: as, b :: bs, h1, h2 => by
    simp only [charListLe] at h1 h2
    by_cases gab : a.toNat < b.toNat
    · rw [if_neg (by omega), if_pos gab] at h2
      exact absurd h2 (by simp)
    · by_cases gba : b.toNat < a.toNat
      · rw [if_neg gab, if_pos gba] at h1
        exact absurd h1 (by simp)
      · rw [if_neg gab, if_neg gba] at h1
        rw [if_neg gba, if_neg gab] at h2
        have htn : a.toNat = b.toNat := by omega
        have hab : a = b := Char.eq_of_val_eq (UInt32.toNat.inj htn)
        rw [hab, charListLe_antisymm as bs h1 h2]

instance : IsTotal String strRel := ⟨fun a b => charListLe_total a.data b.data⟩

instance : IsTrans String strRel :=
  ⟨fun a b c => charListLe_trans a.data b.data c.data⟩

instance : IsAntisymm String strRel := ⟨fun a b h1 h2 => by
  have h := charListLe_antisymm a.data b.data h1 h2
  cases a
  cases b
  exact congrArg String.mk h⟩

instance : IsAntisymm (ℤ × ℤ) periodRel := ⟨fun a b h1 h2 => by
  unfold periodRel at h1 h2
  have h : a.1 = b.1 ∧ a.2 = b.2 := by omega
  exact Prod.ext h.1 h.2⟩

theorem mem_eraseDups_loop {α : Type} [BEq α] [LawfulBEq α] (x : α) :
    ∀ (as bs : List α), (x ∈ List.eraseDups.loop as bs ↔ x ∈ bs ∨ x ∈ as)
  | [], bs => by simp [List.eraseDups.loop]
  | a :: as, bs => by
    rw [List.eraseDups.loop]
    cases he : bs.elem a with
    | true =>
      have ha : a ∈ bs := List.elem_iff.mp he
      rw [mem_eraseDups_loop x as bs]
      constructor
      · rintro (h | h)
        · exact Or.inl h
        · exact Or.inr (List.mem_cons_of_mem a h)
      · rintro (h | h)
        · exact Or.inl h
        · rcases List.mem_cons.mp h with rfl | h
          · exact Or.inl ha
          · exact Or.inr h
    | false =>
      rw [mem_eraseDups_loop x as (a :: bs)]
      constructor
      · rintro (h | h)
        · rcases List.mem_cons.mp h with rfl | h
          · exact Or.inr (List.mem_cons_self _ _)
          · exact Or.inl h
        · exact Or.inr (List.mem_cons_of_mem a h)
      · rintro (h | h)
        · exact Or.inl (List.mem_cons_of_mem a h)
        · rcases List.mem_cons.mp h with rfl | h
          · exact Or.inl (List.mem_cons_self _ _)
          · exact Or.inr h

theorem nodup_eraseDups_loop {α : Type} [BEq α] [LawfulBEq α] :
    ∀ (as bs : List α), bs.Nodup → (List.eraseDups.loop as bs).Nodup
  | [], bs, h => by
    rw [List.eraseDups.loop]
    exact List.nodup_reverse.mpr h
  | a :: as, bs, h => by
    rw [List.eraseDups.loop]
    cases he : bs.elem a with
    | true => exact nodup_eraseDups_loop as bs h
    | false =>
      apply nodup_eraseDups_loop as (a :: bs)
      refine List.nodup_cons.mpr ⟨?_, h⟩
      intro hmem
      simp only [List.elem_eq_mem, decide_eq_false_iff_not] at he
      exact he hmem

theorem mem_eraseDups {α : Type} [BEq α] [LawfulBEq α] {x : α} {l : List α} :
    x ∈ l.eraseDups ↔ x ∈ l := by
  rw [List.eraseDups, mem_eraseDups_loop]
  simp

theorem nodup_eraseDups {α : Type} [BEq α] [LawfulBEq α] (l : List α) :
    l.eraseDups.Nodup := by
  rw [List.eraseDups]
  exact nodup_eraseDups_loop l [] List.nodup_nil

theorem mem_getSectors {data : List CapRateRecord} {s : String} :
    s ∈ getSectors data ↔ s ∈ data.map (fun r => r.Sector) ∧ s ≠ "" := by
  unfold getSectors
  rw [(List.perm_insertionSort strRel _).mem_iff, List.mem_filter, mem_eraseDups]
  simp [bne_iff_ne]

theorem nodup_getSectors (data : List CapRateRecord) : (getSectors data).Nodup := by
  unfold getSectors
  exact (List.perm_insertionSort strRel _).nodup_iff.mpr
    ((nodup_eraseDups _).filter _)

theorem sorted_getSectors (data : List CapRateRecord) :
    List.Sorted strRel (getSectors data) := by
  unfold getSectors
  exact List.sorted_insertionSort strRel _

theorem mem_getPeriods {data : List CapRateRecord} {p : ℤ × ℤ} :
    p ∈ getPeriods data ↔ p ∈ data.map (fun r => r.period_key) := by
  unfold getPeriods
  rw [(List.perm_insertionSort periodRel _).mem_iff, mem_eraseDups]

theorem nodup_getPeriods (data : List CapRateRecord) : (getPeriods data).Nodup := by
  unfold getPeriods
  exact (List.perm_insertionSort periodRel _).nodup_iff.mpr (nodup_eraseDups _)

theorem sorted_getPeriods (data : List CapRateRecord) :
    List.Sorted periodRel (getPeriods data) := by
  unfold getPeriods
  exact List.sorted_insertionSort periodRel _

theorem sorted_nodup_filter_eq {α : Type} {r : α → α → Prop} [IsAntisymm α r]
    (p : α → Bool) {l₁ l₂ : List α}
    (hs₁ : List.Sorted r l₁) (hs₂ : List.Sorted r l₂)
    (hn₁ : l₁.Nodup) (hn₂ : l₂.Nodup)
    (hmem : ∀ a, p a = true → (a ∈ l₁ ↔ a ∈ l₂)) :
    l₁.filter p = l₂.filter p := by
  apply List.eq_of_perm_of_sorted _ (List.Pairwise.filter p hs₁)
    (List.Pairwise.filter p hs₂)
  rw [List.perm_ext_iff_of_nodup (hn₁.filter p) (hn₂.filter p)]
  intro a
  simp only [List.mem_filter]
  constructor
  · rintro ⟨h, hp⟩
    exact ⟨(hmem a hp).mp h, hp⟩
  · rintro ⟨h, hp⟩
    exact ⟨(hmem a hp).mpr h, hp⟩

theorem filterMap_filter_isSome {α β : Type} (g : α → Option β) (l : List α) :
    l.filterMap g = (l.filter (fun a => (g a).isSome)).filterMap g := by
  induction l with
  | nil => rfl
  | cons a l ih =>
    cases hg : g a <;>
      simp [List.filter_cons, hg, List.filterMap_cons, ih]

theorem filterData_filter_valid (data : List CapRateRecord) (s m : Option String)
    (p : Option (ℤ × ℤ)) :
    filterData (data.filter (fun r => r.is_valid_market)) s m p true =
      filterData data s m p true := by
  simp only [filterData, List.filter_filter]
  congr 1
  funext r
  cases hv : r.is_valid_market <;> simp [hv]

/-- The option-valued body of `getTimeSeriesData`'s loop: the entry pushed
for a period, or `none` when the period is skipped. -/
def periodEntry (filtered : List CapRateRecord) (period : ℤ × ℤ) : Option TimeSeriesEntry :=
  let periodData := filtered.filter (fun row => decide (row.period_key = period))
  if 0 < periodData.length then
    let avgRates := ratesOf periodData
    if 0 < avgRates.length then
      some { period := period
             avgRate := round2 (avgRates.sum / (avgRates.length : ℚ))
             count := periodData.length }
    else none
  else none

theorem pushEntry_eq (filtered : List CapRateRecord) (acc : List TimeSeriesEntry)
    (period : ℤ × ℤ) :
    pushEntry filtered acc period =
      match periodEntry filtered period with
      | some e => acc ++ [e]
      | none => acc := by
  simp only [pushEntry, periodEntry]
  split_ifs <;> rfl

theorem foldl_pushEntry (filtered : List CapRateRecord) (ps : List (ℤ × ℤ))
    (init : List TimeSeriesEntry) :
    ps.foldl (pushEntry filtered) init = init ++ ps.filterMap (periodEntry filtered) := by
  induction ps generalizing init with
  | nil => simp
  | cons p ps ih =>
    rw [List.foldl_cons, pushEntry_eq, List.filterMap_cons]
    cases hpe : periodEntry filtered p <;> simp [ih]

/-- C5 (amended): the per-sector means and the time-series period means
are computed only from records passing `isValidMarket` — both
`getSectorComparison` and `getTimeSeriesData` filter with
`validMarketOnly: true` — so on *every* dataset, mixed or not, both views
are unchanged by deleting the invalid-market records: an admissible record
with an invalid market is retained in the dataset but contributes to
neither aggregate. -/
theorem aggregates_skip_invalid_markets (data : List CapRateRecord)
    (sector market : Option String) :
    getSectorComparison data =
      getSectorComparison (data.filter (fun r => r.is_valid_market)) ∧
    getTimeSeriesData data sector market =
      getTimeSeriesData (data.filter (fun r => r.is_valid_market)) sector market := by
  constructor
  · simp only [getSectorComparison, filterData_filter_valid]
    rw [List.filter_map, List.filter_map]
    congr 1
    apply sorted_nodup_filter_eq _ (sorted_getSectors data) (sorted_getSectors _)
      (nodup_getSectors data) (nodup_getSectors _)
    intro s hq
    simp only [Function.comp_apply, decide_eq_true_eq] at hq
    have hne : filterData data (some s) none none true ≠ [] := by
      intro hnil
      rw [hnil] at hq
      norm_num [ratesOf, round2] at hq
    obtain ⟨r, hr⟩ := List.exists_mem_of_ne_nil _ hne
    simp only [filterData, List.mem_filter, Bool.and_eq_true, decide_eq_true_eq,
      Bool.not_true, Bool.false_or] at hr
    obtain ⟨hrdata, ⟨⟨hrsec, -⟩, -⟩, hrvalid⟩ := hr
    rw [mem_getSectors, mem_getSectors]
    constructor
    · rintro ⟨-, hne2⟩
      exact ⟨List.mem_map.mpr ⟨r, List.mem_filter.mpr ⟨hrdata, hrvalid⟩, hrsec⟩, hne2⟩
    · rintro ⟨-, hne2⟩
      exact ⟨List.mem_map.mpr ⟨r, hrdata, hrsec⟩, hne2⟩
  · have hts : ∀ d : List CapRateRecord, getTimeSeriesData d sector market =
        (getPeriods d).filterMap (periodEntry (filterData d sector market none true)) := by
      intro d
      simp only [getTimeSeriesData]
      rw [foldl_pushEntry]
      simp
    rw [hts, hts, filterData_filter_valid]
    rw [filterMap_filter_isSome, filterMap_filter_isSome
      (periodEntry (filterData data sector market none true)) (getPeriods (data.filter _))]
    congr 1
    apply sorted_nodup_filter_eq _ (sorted_getPeriods data) (sorted_getPeriods _)
      (nodup_getPeriods data) (nodup_getPeriods _)
    intro p hp
    simp only [periodEntry, Option.isSome] at hp
    have hne : (filterData data sector market none true).filter
        (fun row => decide (row.period_key = p)) ≠ [] := by
      intro hnil
      rw [hnil] at hp
      simp at hp
    obtain ⟨r, hr⟩ := List.exists_mem_of_ne_nil _ hne
    rw [List.mem_filter] at hr
    obtain ⟨hrF, hrkey⟩ := hr
    rw [decide_eq_true_eq] at hrkey
    simp only [filterData, List.mem_filter, Bool.and_eq_true, decide_eq_true_eq,
      Bool.not_true, Bool.false_or] at hrF
    obtain ⟨hrdata, -, hrvalid⟩ := hrF
    apply iff_of_true
    · exact mem_getPeriods.mpr (List.mem_map.mpr ⟨r, hrdata, hrkey⟩)
    · exact mem_getPeriods.mpr
        (List.mem_map.mpr ⟨r, List.mem_filter.mpr ⟨hrdata, hrvalid⟩, hrkey⟩)

/-- An admissible row whose market name `"2023"` is rejected by
`isValidMarket`. -/
def rawInvalidMarket : RawRow :=
  { Report_Year := some 2021, Report_Half := some 1, Sector := "Industrial",
    Market := "2023", H1_Low := some 5, H1_High := some 5,
    H2_Low := none, H2_High := none }

/-- The record `processData` produces from `rawInvalidMarket`. -/
def invRec : CapRateRecord :=
  { toRawRow := rawInvalidMarket, h1_avg := some 5, h2_avg := none,
    period_key := (2021, 1), is_valid_market := false }

/-- Counterexample for C5: an admissible record with the invalid market
name `"2023"` is admitted into the dataset (and even contributes its
sector to the axis), yet the per-sector comparison and the time series are
empty — it does *not* contribute to the per-sector mean or to the
time-series period means. -/
theorem invalidMarket_not_in_aggregates :
    isValidMarket "2023" = false ∧
    processData [rawInvalidMarket] = [invRec] ∧
    getSectors [invRec] = ["Industrial"] ∧
    getSectorComparison [invRec] = [] ∧
    getTimeSeriesData [invRec] none none = [] := by
  refine ⟨by decide, ?_, ?_, ?_, ?_⟩
  · norm_num [processData, rowAdmissible, isValidYear, isValidHalf,
      isValidCapRate, calculateAverage, rawInvalidMarket, invRec, List.filter,
      (by decide : isValidMarket "2023" = false),
      (by decide : 3 ≤ "Industrial".length)]
  · decide
  · norm_num [getSectorComparison, getSectors, filterData, ratesOf, round2,
      invRec, List.filter, List.insertionSort, List.orderedInsert]
  · norm_num [getTimeSeriesData, pushEntry, getPeriods, filterData, invRec,
      List.filter, List.insertionSort, List.orderedInsert]

/-- C6 (amended): the multi-series output is aligned to the chronologically
sorted period keys — each sector's array has one slot per period and holds
`null` exactly at the periods with no matching records or no non-null
rates — but the *single-series* output is not padded: it is the filterMap
of the per-period entries, so periods with no data are omitted entirely
(every emitted entry has a positive record count), not represented by a
null. -/
theorem timeSeries_null_contract (data : List CapRateRecord)
    (sector market fs fm : Option String) (sec : String) :
    (multiSectorSeries data fs fm sec).length = (getPeriods data).length ∧
    (∀ i : ℕ, (multiSectorSeries data fs fm sec)[i]? = some none ↔
      ∃ p, (getPeriods data)[i]? = some p ∧
        ratesOf ((filterData data fs fm none true).filter (fun row =>
          decide (row.period_key = p) && decide (row.Sector = sec))) = []) ∧
    List.Sorted periodRel (getPeriods data) ∧
    getTimeSeriesData data sector market =
      (getPeriods data).filterMap (periodEntry (filterData data sector market none true)) ∧
    (∀ e ∈ getTimeSeriesData data sector market, 0 < e.count) := by
  have heq : getTimeSeriesData data sector market =
      (getPeriods data).filterMap (periodEntry (filterData data sector market none true)) := by
    simp only [getTimeSeriesData]
    rw [foldl_pushEntry]
    simp
  refine ⟨by simp [multiSectorSeries], ?_, ?_, heq, ?_⟩
  · intro i
    simp only [multiSectorSeries, List.getElem?_map]
    cases hp : (getPeriods data)[i]? with
    | none => simp
    | some p =>
      simp only [Option.map_some', Option.some.injEq]
      constructor
      · intro h
        refine ⟨p, rfl, ?_⟩
        by_cases h1 : 0 < ((filterData data fs fm none true).filter (fun row =>
            decide (row.period_key = p) && decide (row.Sector = sec))).length
        · rw [if_pos h1] at h
          by_cases h2 : 0 < (ratesOf ((filterData data fs fm none true).filter (fun row =>
              decide (row.period_key = p) && decide (row.Sector = sec)))).length
          · rw [if_pos h2] at h
            exact absurd h (by simp)
          · exact List.length_eq_zero.mp (by omega)
        · have hnil : ((filterData data fs fm none true).filter (fun row =>
              decide (row.period_key = p) && decide (row.Sector = sec))) = [] :=
            List.length_eq_zero.mp (by omega)
          rw [hnil]
          rfl
      · rintro ⟨p', hp', hrates⟩
        subst hp'
        have h2 : ¬0 < (ratesOf ((filterData data fs fm none true).filter (fun row =>
            decide (row.period_key = p) && decide (row.Sector = sec)))).length := by
          rw [hrates]
          simp
        split_ifs <;> simp_all
  · exact List.sorted_insertionSort periodRel _
  · intro e he
    rw [heq] at he
    obtain ⟨p, hp, hpe⟩ := List.mem_filterMap.mp he
    simp only [periodEntry] at hpe
    split_ifs at hpe with h1 h2
    cases hpe
    exact h1

/-- Admissible row: Industrial, Dallas, 2021 H1, rate 5. -/
def rawIndustrial : RawRow :=
  { Report_Year := some 2021, Report_Half := some 1, Sector := "Industrial",
    Market := "Dallas", H1_Low := some 5, H1_High := some 5,
    H2_Low := none, H2_High := none }

/-- Admissible row: Office, Dallas, 2022 H1, rate 6. -/
def rawOffice : RawRow :=
  { Report_Year := some 2022, Report_Half := some 1, Sector := "Office",
    Market := "Dallas", H1_Low := some 6, H1_High := some 6,
    H2_Low := none, H2_High := none }

/-- The record `processData` produces from `rawIndustrial`. -/
def recIndustrial : CapRateRecord :=
  { toRawRow := rawIndustrial, h1_avg := some 5, h2_avg := none,
    period_key := (2021, 1), is_valid_market := true }

/-- The record `processData` produces from `rawOffice`. -/
def recOffice : CapRateRecord :=
  { toRawRow := rawOffice, h1_avg := some 6, h2_avg := none,
    period_key := (2022, 1), is_valid_market := true }

/-- Counterexample for C6: on a dataset with two periods, the Industrial
single-series output has only one entry — the period `(2022, 1)` with no
Industrial records is omitted, not emitted as a null — while the
multi-series output for the same sector is padded with `null` at that
period. -/
theorem singleSeries_omits_empty_periods :
    processData [rawIndustrial, rawOffice] = [recIndustrial, recOffice] ∧
    getPeriods [recIndustrial, recOffice] = [(2021, 1), (2022, 1)] ∧
    getTimeSeriesData [recIndustrial, recOffice] (some "Industrial") none =
      [{ period := (2021, 1), avgRate := 5, count := 1 }] ∧
    multiSectorSeries [recIndustrial, recOffice] none none "Industrial" =
      [some 5, none] := by
  have hper : getPeriods [recIndustrial, recOffice] = [(2021, 1), (2022, 1)] := by
    norm_num [getPeriods, recIndustrial, recOffice, List.insertionSort,
      List.orderedInsert, periodRel]
  refine ⟨?_, hper, ?_, ?_⟩
  · norm_num [processData, rowAdmissible, isValidYear, isValidHalf,
      isValidCapRate, calculateAverage, rawIndustrial, rawOffice,
      recIndustrial, recOffice, List.filter,
      (by decide : isValidMarket "Dallas" = true),
      (by decide : 3 ≤ "Industrial".length),
      (by decide : 3 ≤ "Office".length)]
  · rw [getTimeSeriesData, hper]
    norm_num [pushEntry, filterData, ratesOf, jsOr, round2,
      List.filter_cons, List.filter_nil, List.filterMap_cons, List.filterMap_nil,
      recIndustrial, recOffice, rawIndustrial, rawOffice,
      (by decide : ¬("Office" = "Industrial"))]
  · rw [multiSectorSeries, hper]
    norm_num [filterData, ratesOf, jsOr, round2,
      List.filter_cons, List.filter_nil, List.filterMap_cons, List.filterMap_nil,
      recIndustrial, recOffice, rawIndustrial, rawOffice,
      (by decide : ¬("Office" = "Industrial"))]

/-- Witness for C6 (amended): the positive-count clause applied to the
entry the single series emits on the concrete one-record dataset. -/
theorem timeSeries_null_contract_witness :
    0 < ({ period := ((2021 : ℤ), (1 : ℤ)), avgRate := 5, count := 1 } : TimeSeriesEntry).count := by
  apply (timeSeries_null_contract [recIndustrial] (some "Industrial") none none none
    "Industrial").2.2.2.2
  have hper : getPeriods [recIndustrial] = [(2021, 1)] := by
    norm_num [getPeriods, recIndustrial, List.insertionSort, List.orderedInsert]
  rw [getTimeSeriesData, hper]
  norm_num [pushEntry, filterData, ratesOf, jsOr, round2,
    List.filter_cons, List.filter_nil, List.filterMap_cons, List.filterMap_nil,
    recIndustrial, rawIndustrial]

theorem foldl_append_flatMap {α β : Type} (g : α → List β) (l : List α) (init : List β) :
    l.foldl (fun acc a => acc ++ g a) init = init ++ l.flatMap g := by
  induction l generalizing init with
  | nil => simp
  | cons a l ih => simp [ih, List.flatMap_cons]

/-- C8 (amended): in the sector/market/time aggregates each record
contributes at most one rate value, but the selection is by JavaScript
truthiness, not presence: `h1Avg` is used when present *and nonzero*, and a
zero `h1Avg` falls through to `h2Avg`; moreover the period-scoped market
aggregate `getMarketCapRate` is different — it pushes *both* half-averages
of a record when both are truthy, so its `dataPoints` is the sum over
records of the number of truthy half-averages (up to two per record). -/
theorem aggregate_rate_selection :
    (∀ rows : List CapRateRecord, (ratesOf rows).length ≤ rows.length) ∧
    (∀ a b : Option ℚ, ∀ x : ℚ, a = some x → x ≠ 0 → jsOr a b = some x) ∧
    (∀ a b : Option ℚ, a = none ∨ a = some 0 → jsOr a b = b) ∧
    (∀ (data : List CapRateRecord) (sector market : String) (period : ℤ × ℤ)
      (stats : MarketCapStats), getMarketCapRate data sector market period = some stats →
      stats.dataPoints = ((filterData data (some sector) (some market) (some period) true).map
        (fun r => (truthyRate r.h1_avg).length + (truthyRate r.h2_avg).length)).sum) := by
  refine ⟨?_, ?_, ?_, ?_⟩
  · intro rows
    calc (ratesOf rows).length
        ≤ (rows.map (fun row => jsOr row.h1_avg row.h2_avg)).length :=
          List.length_filterMap_le _ _
      _ = rows.length := List.length_map _ _
  · rintro a b x rfl hx
    simp [jsOr, hx]
  · rintro a b (rfl | rfl) <;> simp [jsOr]
  · intro data sector market period stats h
    have hstep : (fun (acc : List ℚ) (row : CapRateRecord) =>
        acc ++ truthyRate row.h1_avg ++ truthyRate row.h2_avg) =
        (fun (acc : List ℚ) (row : CapRateRecord) =>
          acc ++ (truthyRate row.h1_avg ++ truthyRate row.h2_avg)) := by
      funext acc row
      rw [List.append_assoc]
    simp only [getMarketCapRate, hstep] at h
    split_ifs at h with h1 h2 h3
    cases h
    rw [foldl_append_flatMap]
    simp [List.length_flatMap, Function.comp_def, List.length_append]

/-- Admissible row with both half-averages truthy (H1 4, H2 6). -/
def rawBothHalves : RawRow :=
  { Report_Year := some 2021, Report_Half := some 1, Sector := "Industrial",
    Market := "Dallas", H1_Low := some 4, H1_High := some 4,
    H2_Low := some 6, H2_High := some 6 }

/-- The record `processData` produces from `rawBothHalves`. -/
def recBoth : CapRateRecord :=
  { toRawRow := rawBothHalves, h1_avg := some 4, h2_avg := some 6,
    period_key := (2021, 1), is_valid_market := true }

/-- Admissible row whose `h1_avg` is present but zero (H1 bounds "0",
H2 bounds 5): parseable, so `h1Avg = 0`, yet falsy. -/
def rawZeroH1 : RawRow :=
  { Report_Year := some 2021, Report_Half := some 1, Sector := "Industrial",
    Market := "Dallas", H1_Low := some 0, H1_High := some 0,
    H2_Low := some 5, H2_High := some 5 }

/-- The record `processData` produces from `rawZeroH1`. -/
def recZeroH1 : CapRateRecord :=
  { toRawRow := rawZeroH1, h1_avg := some 0, h2_avg := some 5,
    period_key := (2021, 1), is_valid_market := true }

/-- Counterexample for C8: a single record with both half-averages truthy
contributes *two* rate values to `getMarketCapRate` (`dataPoints = 2`,
average 5 of 4 and 6); and a record whose `h1Avg` is present but zero is
represented by its `h2Avg` (sector mean 5) — both contradicting
"exactly one value: h1Avg if present, else h2Avg". -/
theorem marketAggregate_double_counts :
    processData [rawBothHalves] = [recBoth] ∧
    getMarketCapRate [recBoth] "Industrial" "Dallas" (2021, 1) =
      some { avgRate := 5, minRate := 4, maxRate := 6, dataPoints := 2 } ∧
    processData [rawZeroH1] = [recZeroH1] ∧
    getSectorComparison [recZeroH1] =
      [{ sector := "Industrial", avgRate := 5, count := 1 }] := by
  refine ⟨?_, ?_, ?_, ?_⟩
  · norm_num [processData, rowAdmissible, isValidYear, isValidHalf,
      isValidCapRate, calculateAverage, rawBothHalves, recBoth,
      List.filter_cons, List.filter_nil,
      (by decide : isValidMarket "Dallas" = true),
      (by decide : 3 ≤ "Industrial".length)]
  · norm_num [getMarketCapRate, filterData, truthyRate, listMin, listMax, round2,
      List.filter_cons, List.filter_nil, recBoth, rawBothHalves,
      (by decide : ¬("Industrial" = "")), (by decide : ¬("Dallas" = ""))]
  · norm_num [processData, rowAdmissible, isValidYear, isValidHalf,
      isValidCapRate, calculateAverage, rawZeroH1, recZeroH1,
      List.filter_cons, List.filter_nil,
      (by decide : isValidMarket "Dallas" = true),
      (by decide : 3 ≤ "Industrial".length)]
  · norm_num [getSectorComparison, getSectors, filterData, ratesOf, jsOr, round2,
      List.filter_cons, List.filter_nil, List.filterMap_cons, List.filterMap_nil,
      List.insertionSort, List.orderedInsert, recZeroH1, rawZeroH1]

/-- Witness for C8 (amended): the `dataPoints` clause applied to the
concrete one-record dataset where both halves are truthy. -/
theorem aggregate_rate_selection_witness :
    ({ avgRate := 5, minRate := 4, maxRate := 6, dataPoints := 2 } : MarketCapStats).dataPoints =
      ((filterData [recBoth] (some "Industrial") (some "Dallas") (some (2021, 1)) true).map
        (fun r => (truthyRate r.h1_avg).length + (truthyRate r.h2_avg).length)).sum := by
  apply aggregate_rate_selection.2.2.2 [recBoth] "Industrial" "Dallas" (2021, 1)
  norm_num [getMarketCapRate, filterData, truthyRate, listMin, listMax, round2,
    List.filter_cons, List.filter_nil, recBoth, rawBothHalves,
    (by decide : ¬("Industrial" = "")), (by decide : ¬("Dallas" = ""))]

/-- `parseFloat(v.toFixed(2))` over the reals (the volatility functions
involve `Math.sqrt`, so they are modelled over `ℝ`; these definitions are
noncomputable only because of `Real.sqrt` and the real floor). -/
noncomputable def round2R (x : ℝ) : ℝ := ((⌊x * 100 + 1 / 2⌋ : ℤ) : ℝ) / 100

/-- `DataService.calculateVolatility` (`DataService.js:410-418`): 0 for
lists shorter than 2, else the square root of the mean squared deviation
(divide by `N`), rounded to two decimals. -/
noncomputable def dataService_calculateVolatility (rates : List ℝ) : ℝ :=
  if rates.length < 2 then 0
  else
    let mean : ℝ := rates.sum / (rates.length : ℝ)
    let squaredDiffs := rates.map (fun r => (r - mean) ^ 2)
    let variance := squaredDiffs.sum / (rates.length : ℝ)
    round2R (Real.sqrt variance)

/-- `DashboardController.calculateVolatility`
(`DashboardController.js:478-486`): the same computation without the
rounding. -/
noncomputable def dashboard_calculateVolatility (rates : List ℝ) : ℝ :=
  if rates.length < 2 then 0
  else
    let mean : ℝ := rates.sum / (rates.length : ℝ)
    let squaredDiffs := rates.map (fun r => (r - mean) ^ 2)
    let variance := squaredDiffs.sum / (rates.length : ℝ)
    Real.sqrt variance

/-- The population standard deviation as the spec words it: the square
root of the mean squared deviation from the mean, dividing by `N` (not
`N − 1`). -/
noncomputable def specPopStdDev (rates : List ℝ) : ℝ :=
  Real.sqrt ((rates.map (fun r => (r - rates.sum / (rates.length : ℝ)) ^ 2)).sum /
    (rates.length : ℝ))

theorem sum_sq_sub_mean (rates : List ℝ) (μ : ℝ) :
    (rates.map (fun r => (r - μ) ^ 2)).sum =
      (rates.map (fun r => r ^ 2)).sum - 2 * μ * rates.sum + rates.length * μ ^ 2 := by
  induction rates with
  | nil => simp
  | cons a l ih =>
    simp only [List.map_cons, List.sum_cons, List.length_cons, ih]
    push_cast
    ring

/-- C9 (amended): `DashboardController.calculateVolatility` returns
exactly the population standard deviation (the divide-by-`N` formula, which
also equals the mean-of-squares-minus-squared-mean form), and both copies
return 0 for empty and single-element lists; the `DataService` copy,
however, returns the population standard deviation *rounded to two
decimals*, not the exact value. -/
theorem volatility_is_popStdDev :
    (∀ rates : List ℝ, dashboard_calculateVolatility rates = specPopStdDev rates) ∧
    (∀ rates : List ℝ, 2 ≤ rates.length →
      dataService_calculateVolatility rates = round2R (specPopStdDev rates)) ∧
    dataService_calculateVolatility [] = 0 ∧
    (∀ x : ℝ, dataService_calculateVolatility [x] = 0) ∧
    (∀ rates : List ℝ, rates ≠ [] →
      specPopStdDev rates =
        Real.sqrt ((rates.map (fun r => r ^ 2)).sum / (rates.length : ℝ) -
          (rates.sum / (rates.length : ℝ)) ^ 2)) := by
  refine ⟨?_, ?_, rfl, fun x => by simp [dataService_calculateVolatility], ?_⟩
  · intro rates
    simp only [dashboard_calculateVolatility, specPopStdDev]
    split_ifs with h
    · rcases rates with _ | ⟨x, _ | ⟨y, l⟩⟩
      · simp
      · simp
      · exfalso
        simp only [List.length_cons] at h
        omega
    · rfl
  · intro rates h
    simp only [dataService_calculateVolatility, specPopStdDev]
    rw [if_neg (by omega)]
  · intro rates hne
    have hN : (rates.length : ℝ) ≠ 0 :=
      Nat.cast_ne_zero.mpr (Nat.pos_iff_ne_zero.mp (List.length_pos.mpr hne))
    simp only [specPopStdDev]
    rw [sum_sq_sub_mean]
    congr 1
    field_simp
    ring

/-- Counterexample for C9: on `[1, 2, 3]` the population standard deviation
is `√(2/3)`, an irrational number, but `DataService.calculateVolatility`
returns exactly `0.82` (the two-decimal rounding of it), so it is not the
population standard deviation of the list. -/
theorem dataService_volatility_rounds :
    dataService_calculateVolatility [1, 2, 3] ≠ specPopStdDev [1, 2, 3] := by
  have hspec : specPopStdDev [1, 2, 3] = Real.sqrt (2 / 3) := by
    simp only [specPopStdDev, List.map_cons, List.map_nil, List.sum_cons,
      List.sum_nil, List.length_cons, List.length_nil]
    norm_num
  have hlo : (0.815 : ℝ) ≤ Real.sqrt (2 / 3) := by
    rw [show (0.815 : ℝ) = Real.sqrt (0.815 ^ 2) from (Real.sqrt_sq (by norm_num)).symm]
    exact Real.sqrt_le_sqrt (by norm_num)
  have hhi : Real.sqrt (2 / 3) < 0.825 := by
    rw [Real.sqrt_lt' (by norm_num)]
    norm_num
  have hds : dataService_calculateVolatility [1, 2, 3] = 0.82 := by
    have h1 : dataService_calculateVolatility [1, 2, 3] = round2R (Real.sqrt (2 / 3)) := by
      simp only [dataService_calculateVolatility, List.map_cons, List.map_nil,
        List.sum_cons, List.sum_nil, List.length_cons, List.length_nil]
      rw [if_neg (by norm_num)]
      norm_num
    rw [h1, round2R]
    have hfloor : (⌊Real.sqrt (2 / 3) * 100 + 1 / 2⌋ : ℤ) = 82 := by
      rw [Int.floor_eq_iff]
      constructor
      · push_cast
        nlinarith [hlo]
      · push_cast
        nlinarith [hhi]
    rw [hfloor]
    norm_num
  rw [hds, hspec]
  intro heq
  have h2 : (0.82 : ℝ) ^ 2 = 2 / 3 := by
    rw [heq]
    exact Real.sq_sqrt (by norm_num)
  norm_num at h2

/-- Witness for C9 (amended) at the concrete lists `[1, 3]` and `[]`. -/
theorem volatility_is_popStdDev_witness :
    dataService_calculateVolatility [1, 3] = round2R (specPopStdDev [1, 3]) ∧
    dataService_calculateVolatility [] = 0 :=
  ⟨volatility_is_popStdDev.2.1 [1, 3] (by simp), volatility_is_popStdDev.2.2.1⟩

end CapRate
